import Mathlib

/-!
# Verification of the ch32v30x-hal core (GPIO, REC, Delay)

A shallow embedding of the register-level behaviour of the GPIO pin
mode-transition algorithm (`src/gpio/convert.rs`), the pin output/readback
operations (`src/gpio/mod.rs`), the peripheral reset/enable control
(`src/rcc/rec.rs`) and the SysTick delay engine (`src/delay.rs`),
together with theorems settling the specification's claims about them.

Machine integers are modelled as `Nat` with explicit `% 2^32` / `% 2^64`
reductions at the points where the Rust code performs wrapping 32-bit or
64-bit operations.  Register state is explicit: each function takes the relevant
registers as arguments and returns the written values.
-/

/-! ## Pin modes (src/gpio/convert.rs)

The `PinMode` trait carries, per mode type, a 4-bit configuration code
`CFGR` (`<<CNF:2, MODE:2>>`) and two pull-direction flags.  We model a
mode as a record of those three static constants, and each concrete
`impl PinMode for ...` as a definition of such a record.
-/

structure PinModeT where
  CFGR : ℕ
  PULL_DOWN : Bool
  PULL_UP : Bool
deriving DecidableEq, Repr

/-- `impl PinMode for Input<Floating>`: `CFGR = 0b01_00`. -/
def Input.Floating : PinModeT := ⟨0b0100, false, false⟩

/-- `impl PinMode for Input<PullDown>`: `CFGR = 0b10_00`, `PULL_DOWN = true`. -/
def Input.PullDown : PinModeT := ⟨0b1000, true, false⟩

/-- `impl PinMode for Input<PullUp>`: `CFGR = 0b10_00`, `PULL_UP = true`. -/
def Input.PullUp : PinModeT := ⟨0b1000, false, true⟩

/-- `impl PinMode for Analog`: `CFGR = 0b00_00`. -/
def Analog : PinModeT := ⟨0b0000, false, false⟩

/-- `impl PinMode for Output<PushPull>`: `CFGR = 0b10_00`. -/
def Output.PushPull : PinModeT := ⟨0b1000, false, false⟩

/-- `impl PinMode for Output<OpenDrain>`: `CFGR = 0b10_01`. -/
def Output.OpenDrain : PinModeT := ⟨0b1001, false, false⟩

/-- `impl PinMode for Alternate<PushPull>`: `CFGR = 0b10_10`. -/
def Alternate.PushPull : PinModeT := ⟨0b1010, false, false⟩

/-- `impl PinMode for Alternate<OpenDrain>`: `CFGR = 0b10_11`. -/
def Alternate.OpenDrain : PinModeT := ⟨0b1011, false, false⟩

/-! ## GPIO port register state (src/gpio/mod.rs)

One GPIO port's registers that the embedded operations read or
read-modify-write: the low/high configuration registers and the output
data register.  All are 32-bit; values are kept `< 2^32` by the
operations themselves (Rust `u32` arithmetic).
-/

structure GpioState where
  cfglr : ℕ
  cfghr : ℕ
  outdr : ℕ
deriving DecidableEq, Repr

/-- The write (if any) that `Pin::mode` issues to the pull set/clear
registers: `bcr w` is `bcr.write(w)`, `bshr w` is `bshr.write(w)`. -/
inductive PullWrite where
  | none : PullWrite
  | bcr : ℕ → PullWrite
  | bshr : ℕ → PullWrite
deriving DecidableEq, Repr

/-- 32-bit bitwise NOT, as Rust `!x` on `u32`. -/
def u32Not (x : ℕ) : ℕ := (2 ^ 32 - 1) ^^^ (x % 2 ^ 32)

/-- `Pin::<P, N, MODE>::mode::<M>` from `src/gpio/convert.rs`:

```rust
let offset = 4 * N % 8;
if MODE::CFGR != M::CFGR {
    if N < 8 {
        cfglr.modify(|r, w| w.bits(r.bits() & !(0b1111 << offset) | (M::CFGR << offset)));
    } else {
        cfghr.modify(|r, w| w.bits(r.bits() & !(0b1111 << offset) | (M::CFGR << offset)));
    }
}
if MODE::PULL_DOWN { bcr.write(|w| w.bits(0b1 << N)); }
else if MODE::PULL_UP { bshr.write(|w| w.bits(0b1 << N)); }
```

Returns the updated configuration registers and the pull-register write
performed.  Note the Rust expression `4 * N % 8` parses as `(4 * N) % 8`,
and the pull branch consults the *current* mode parameter `MODE`. -/
def Pin.mode (N : ℕ) (MODE M : PinModeT) (s : GpioState) : GpioState × PullWrite :=
  let offset := 4 * N % 8
  let s1 :=
    if MODE.CFGR ≠ M.CFGR then
      if N < 8 then
        { s with cfglr :=
            (s.cfglr &&& u32Not (0b1111 <<< offset % 2 ^ 32)
              ||| M.CFGR <<< offset % 2 ^ 32) % 2 ^ 32 }
      else
        { s with cfghr :=
            (s.cfghr &&& u32Not (0b1111 <<< offset % 2 ^ 32)
              ||| M.CFGR <<< offset % 2 ^ 32) % 2 ^ 32 }
    else s
  let w :=
    if MODE.PULL_DOWN then PullWrite.bcr (0b1 <<< N % 2 ^ 32)
    else if MODE.PULL_UP then PullWrite.bshr (0b1 <<< N % 2 ^ 32)
    else PullWrite.none
  (s1, w)

/-- `Pin::_set_high` (src/gpio/mod.rs): the word written to `bshr`. -/
def Pin.set_high_word (N : ℕ) : ℕ := 1 <<< N % 2 ^ 32

/-- `Pin::_set_low` (src/gpio/mod.rs): the word written to `bshr`. -/
def Pin.set_low_word (N : ℕ) : ℕ := 1 <<< (16 + N) % 2 ^ 32

/-- `Pin::_is_set_low` (src/gpio/mod.rs):
`outdr.read().bits() & (1 << N) == 0`. -/
def Pin.is_set_low (N outdr : ℕ) : Bool := outdr &&& (1 <<< N) == 0

/-- Hardware semantics of a write of word `w` to the BSHR set/reset
register, as documented: for each output bit `i < 16`, writing bit `i`
sets `outdr` bit `i`, writing bit `16+i` clears it (set bits take
priority), other bits of `outdr` are unchanged. -/
def bshrWrite (w outdr : ℕ) : ℕ :=
  (outdr &&& u32Not (w >>> 16 % 2 ^ 16)) ||| w % 2 ^ 16

/-! ## Delay engine (src/delay.rs)

`Delay` holds a single `u32` frequency.  `delay_us` / `delay_ms` widen
the count and the frequency to `u64`, compute
`count as u64 * frequency as u64 / divisor` in 64-bit arithmetic, and
program the SysTick compare register `CMP` with the result.  We embed the
compare-value computation; the inputs are `u32` (kept `< 2^32` by
hypothesis) and the arithmetic is `u64`, hence the `% 2^64`. -/

def Delay.delay_us_cmp (frequency us : ℕ) : ℕ :=
  us * frequency % 2 ^ 64 / 1000000

/-- `Delay::delay_ms`: `let i = (ms as u64) * (self.frequency as u64) / 1_000;` -/
def Delay.delay_ms_cmp (frequency ms : ℕ) : ℕ :=
  ms * frequency % 2 ^ 64 / 1000

/-- `impl DelayUs<i32> for Delay`:
`assert!(us >= 0); Delay::delay_us(self, us as u32)`.
`some v` means the assertion passed and `v` is the `u32` argument
forwarded to the `u32` path; `none` means the assertion failed before
any hardware register was touched.  The `i32` value is an integer in
`[-2^31, 2^31)`; `as u32` is the two's-complement reinterpretation. -/
def Delay.delay_us_i32 (us : ℤ) : Option ℕ :=
  if 0 ≤ us then some (us % 2 ^ 32).toNat else none

/-- `impl DelayMs<i32> for Delay`:
`assert!(ms >= 0); Delay::delay_ms(self, ms as u32)`. -/
def Delay.delay_ms_i32 (ms : ℤ) : Option ℕ :=
  if 0 ≤ ms then some (ms % 2 ^ 32).toNat else none

/-- `impl DelayUs<u16> for Delay` and `impl DelayUs<u8> for Delay`:
`Delay::delay_us(self, u32::from(us))` — lossless widening.  The same
definition serves the `DelayMs<u16>` / `DelayMs<u8>` impls, which are
textually identical widenings. -/
def Delay.delay_widen (us : ℕ) : ℕ := us

/-! ## Peripheral Reset and Enable Control (src/rcc/rec.rs)

Each generated peripheral struct's `ResetEnable` impl read-modify-writes
one named single-bit field: `enable` sets `$enf` in `$enr`, `disable`
clears it, `reset` sets `$rstf` in `$rstr`.  For every peripheral in the
generator table the enable register is `apb2pcenr` and the reset
register is `apb2prstr`; the bit position of each named field comes from
the (external) `ch32v3` peripheral-access crate.  We model a peripheral
token by its two bit positions and the two registers as explicit state.
`modify` with `set_bit`/`clear_bit` preserves every other bit of the
register (svd2rust semantics). -/

structure RccState where
  apb2pcenr : ℕ
  apb2prstr : ℕ
deriving DecidableEq, Repr

structure Periph where
  enf : ℕ
  rstf : ℕ
deriving DecidableEq, Repr

/-- `ResetEnable::enable`: `enr.modify(|_, w| w.$enf().set_bit())`
(inside `interrupt::free`). -/
def ResetEnable.enable (p : Periph) (s : RccState) : RccState :=
  { s with apb2pcenr := s.apb2pcenr ||| 1 <<< p.enf % 2 ^ 32 }

/-- `ResetEnable::disable`: `enr.modify(|_, w| w.$enf().clear_bit())`
(inside `interrupt::free`). -/
def ResetEnable.disable (p : Periph) (s : RccState) : RccState :=
  { s with apb2pcenr := s.apb2pcenr &&& u32Not (1 <<< p.enf % 2 ^ 32) }

/-- `ResetEnable::reset`: `rstr.modify(|_, w| w.$rstf().set_bit())`
(inside `interrupt::free`). -/
def ResetEnable.reset (p : Periph) (s : RccState) : RccState :=
  { s with apb2prstr := s.apb2prstr ||| 1 <<< p.rstf % 2 ^ 32 }

/-- The `GPIOA: Gpioa => (apb2pcenr, iopaen, apb2prstr, ioparst)` table
entry; `IOPAEN` and `IOPARST` are bit 2 of their registers in the
`ch32v3` peripheral-access crate.  Used only to instantiate the generic
theorems at a concrete token. -/
def Periph.Gpioa : Periph := ⟨2, 2⟩

/-- `pub enum AdcClkSel` (src/rcc/rec.rs). -/
inductive AdcClkSel where
  | PCLK2_Div2 : AdcClkSel
  | PCLK2_Div4 : AdcClkSel
  | PCLK2_Div6 : AdcClkSel
  | PCLK2_Div8 : AdcClkSel
deriving DecidableEq, Repr

/-- `PeripheralREC::kernel_adc_clk_mux(&mut self, sel: AdcClkSel)`:
the body is `unimplemented!()`, an unconditional panic.  `Except.error`
models the panic, raised before any register state is read or written;
`Except.ok` would carry the updated register state of a normal return. -/
def PeripheralREC.kernel_adc_clk_mux (sel : AdcClkSel) (s : RccState) :
    Except String RccState :=
  Except.error "not implemented"

/-! ## Helper lemmas on 32-bit bit manipulation -/

theorem two_pow_lt_two_pow_32 {b : ℕ} (hb : b < 32) : 2 ^ b < 2 ^ 32 :=
  Nat.pow_lt_pow_right (by norm_num) hb

theorem one_shiftLeft_mod_two_pow_32 {b : ℕ} (hb : b < 32) :
    1 <<< b % 2 ^ 32 = 2 ^ b := by
  rw [Nat.one_shiftLeft, Nat.mod_eq_of_lt (two_pow_lt_two_pow_32 hb)]

theorem testBit_eq_false_of_lt_32 {x : ℕ} (hx : x < 2 ^ 32) {i : ℕ}
    (hi : 32 ≤ i) : x.testBit i = false :=
  Nat.testBit_eq_false_of_lt
    (lt_of_lt_of_le hx (Nat.pow_le_pow_right (by norm_num) hi))

theorem testBit_u32Not_two_pow {b : ℕ} (hb : b < 32) (i : ℕ) :
    (u32Not (2 ^ b)).testBit i = (decide (i < 32) && !decide (b = i)) := by
  rw [u32Not, Nat.mod_eq_of_lt (two_pow_lt_two_pow_32 hb), Nat.testBit_xor,
    Nat.testBit_two_pow_sub_one, Nat.testBit_two_pow]
  by_cases h : i < 32
  · by_cases h2 : b = i <;> simp [h, h2]
  · have : b ≠ i := by omega
    simp [h, this]

/-! ## Theorems: delay engine -/

/-- C4: for every `u32` count and frequency, `delay_us` programs the
compare register with exactly `⌊us * F / 1_000_000⌋` and `delay_ms` with
exactly `⌊ms * F / 1_000⌋`; the 64-bit products cannot overflow for any
`u32` inputs; and the two concrete scenarios of the spec hold:
`F = 48 MHz, delay_us(100)` programs 4800, and `F = 8 MHz, delay_ms(5)`
programs 40000. -/
theorem delay_cmp_exact (f us ms : ℕ) (hf : f < 2 ^ 32) (hus : us < 2 ^ 32)
    (hms : ms < 2 ^ 32) :
    us * f < 2 ^ 64 ∧ ms * f < 2 ^ 64 ∧
    Delay.delay_us_cmp f us = us * f / 1000000 ∧
    Delay.delay_ms_cmp f ms = ms * f / 1000 ∧
    Delay.delay_us_cmp 48000000 100 = 4800 ∧
    Delay.delay_ms_cmp 8000000 5 = 40000 := by
  have h1 : us * f < 2 ^ 64 := by
    calc us * f < 2 ^ 32 * 2 ^ 32 := Nat.mul_lt_mul'' hus hf
    _ = 2 ^ 64 := by norm_num
  have h2 : ms * f < 2 ^ 64 := by
    calc ms * f < 2 ^ 32 * 2 ^ 32 := Nat.mul_lt_mul'' hms hf
    _ = 2 ^ 64 := by norm_num
  refine ⟨h1, h2, ?_, ?_, by norm_num [Delay.delay_us_cmp],
    by norm_num [Delay.delay_ms_cmp]⟩
  · rw [Delay.delay_us_cmp, Nat.mod_eq_of_lt h1]
  · rw [Delay.delay_ms_cmp, Nat.mod_eq_of_lt h2]

theorem delay_cmp_exact_witness :
    (48000000 < 2 ^ 32 ∧ 100 < 2 ^ 32 ∧ 5 < 2 ^ 32) ∧
    (100 * 48000000 < 2 ^ 64 ∧ 5 * 48000000 < 2 ^ 64 ∧
      Delay.delay_us_cmp 48000000 100 = 100 * 48000000 / 1000000 ∧
      Delay.delay_ms_cmp 48000000 5 = 5 * 48000000 / 1000 ∧
      Delay.delay_us_cmp 48000000 100 = 4800 ∧
      Delay.delay_ms_cmp 8000000 5 = 40000) :=
  ⟨⟨by norm_num, by norm_num, by norm_num⟩,
    delay_cmp_exact 48000000 100 5 (by norm_num) (by norm_num) (by norm_num)⟩

/-- C5: for every frequency `F`, `delay_us(1_000_000)` and
`delay_ms(1000)` program the same compare value, namely `F` itself. -/
theorem delay_one_second_equiv (f : ℕ) (hf : f < 2 ^ 32) :
    Delay.delay_us_cmp f 1000000 = f ∧ Delay.delay_ms_cmp f 1000 = f := by
  have h1 : 1000000 * f < 2 ^ 64 := by
    calc 1000000 * f < 2 ^ 32 * 2 ^ 32 :=
      Nat.mul_lt_mul'' (by norm_num) hf
    _ = 2 ^ 64 := by norm_num
  have h2 : 1000 * f < 2 ^ 64 := by
    calc 1000 * f < 2 ^ 32 * 2 ^ 32 := Nat.mul_lt_mul'' (by norm_num) hf
    _ = 2 ^ 64 := by norm_num
  constructor
  · rw [Delay.delay_us_cmp, Nat.mod_eq_of_lt h1,
      Nat.mul_div_cancel_left f (by norm_num)]
  · rw [Delay.delay_ms_cmp, Nat.mod_eq_of_lt h2,
      Nat.mul_div_cancel_left f (by norm_num)]

theorem delay_one_second_equiv_witness :
    48000000 < 2 ^ 32 ∧
    (Delay.delay_us_cmp 48000000 1000000 = 48000000 ∧
      Delay.delay_ms_cmp 48000000 1000 = 48000000) :=
  ⟨by norm_num, delay_one_second_equiv 48000000 (by norm_num)⟩

/-- C8: the `i32` convenience overloads of `delay_us` / `delay_ms`
assert-fail on every negative input before forwarding anything to the
hardware path (no truncation to `u32` occurs), and on every nonnegative
`i32` input — as well as every `u16`/`u8` input — they widen the value
and forward it unchanged to the `u32` path. -/
theorem delay_i32_overloads (us ms : ℤ) (w : ℕ)
    (hus₁ : -(2 ^ 31) ≤ us) (hus₂ : us < 2 ^ 31)
    (hms₁ : -(2 ^ 31) ≤ ms) (hms₂ : ms < 2 ^ 31) (hw : w < 2 ^ 16) :
    (us < 0 → Delay.delay_us_i32 us = none) ∧
    (0 ≤ us → Delay.delay_us_i32 us = some us.toNat ∧ (us.toNat : ℤ) = us) ∧
    (ms < 0 → Delay.delay_ms_i32 ms = none) ∧
    (0 ≤ ms → Delay.delay_ms_i32 ms = some ms.toNat ∧ (ms.toNat : ℤ) = ms) ∧
    Delay.delay_widen w = w := by
  refine ⟨fun h => ?_, fun h => ?_, fun h => ?_, fun h => ?_, rfl⟩
  · rw [Delay.delay_us_i32, if_neg (by omega)]
  · rw [Delay.delay_us_i32, if_pos h,
      Int.emod_eq_of_lt h (by omega)]
    exact ⟨rfl, Int.toNat_of_nonneg h⟩
  · rw [Delay.delay_ms_i32, if_neg (by omega)]
  · rw [Delay.delay_ms_i32, if_pos h,
      Int.emod_eq_of_lt h (by omega)]
    exact ⟨rfl, Int.toNat_of_nonneg h⟩

theorem delay_i32_overloads_witness :
    (-(2 ^ 31) ≤ (-1 : ℤ) ∧ (-1 : ℤ) < 2 ^ 31 ∧
      -(2 ^ 31) ≤ (3 : ℤ) ∧ (3 : ℤ) < 2 ^ 31 ∧ (200 : ℕ) < 2 ^ 16) ∧
    (((-1 : ℤ) < 0 → Delay.delay_us_i32 (-1) = none) ∧
      ((0 : ℤ) ≤ -1 → Delay.delay_us_i32 (-1) = some (-1 : ℤ).toNat ∧
        (((-1 : ℤ).toNat : ℤ) = -1)) ∧
      ((3 : ℤ) < 0 → Delay.delay_ms_i32 3 = none) ∧
      ((0 : ℤ) ≤ 3 → Delay.delay_ms_i32 3 = some (3 : ℤ).toNat ∧
        (((3 : ℤ).toNat : ℤ) = 3)) ∧
      Delay.delay_widen 200 = 200) :=
  ⟨⟨by norm_num, by norm_num, by norm_num, by norm_num, by norm_num⟩,
    delay_i32_overloads (-1) 3 200 (by norm_num) (by norm_num) (by norm_num)
      (by norm_num) (by norm_num)⟩

/-- C9: for every `AdcClkSel` argument and register state,
`kernel_adc_clk_mux` fails with the not-implemented panic before touching
any register: it never returns a (normal or modified) register state. -/
theorem adc_clk_mux_unimplemented (sel : AdcClkSel) (s : RccState) :
    PeripheralREC.kernel_adc_clk_mux sel s = Except.error "not implemented" ∧
    ∀ s', PeripheralREC.kernel_adc_clk_mux sel s ≠ Except.ok s' := by
  refine ⟨rfl, fun s' h => ?_⟩
  simp [PeripheralREC.kernel_adc_clk_mux] at h

/-! ## Theorems: peripheral reset/enable control -/

/-- C6: for a peripheral whose enable bit starts at 0, `enable()` then
`disable()` restores the whole register state exactly; `enable()` twice
leaves the bit at 1 (idempotent); and each of `enable()`/`disable()`
changes only that peripheral's bit of the shared enable register and
nothing in the reset register. -/
theorem rec_enable_disable (p : Periph) (s : RccState)
    (hp : p.enf < 32) (hs : s.apb2pcenr < 2 ^ 32)
    (h0 : s.apb2pcenr.testBit p.enf = false) :
    ResetEnable.disable p (ResetEnable.enable p s) = s ∧
    ResetEnable.enable p (ResetEnable.enable p s) = ResetEnable.enable p s ∧
    (ResetEnable.enable p s).apb2pcenr.testBit p.enf = true ∧
    (ResetEnable.disable p s).apb2pcenr.testBit p.enf = false ∧
    (∀ i, i ≠ p.enf →
      (ResetEnable.enable p s).apb2pcenr.testBit i = s.apb2pcenr.testBit i) ∧
    (∀ i, i ≠ p.enf →
      (ResetEnable.disable p s).apb2pcenr.testBit i = s.apb2pcenr.testBit i) ∧
    (ResetEnable.enable p s).apb2prstr = s.apb2prstr ∧
    (ResetEnable.disable p s).apb2prstr = s.apb2prstr := by
  obtain ⟨x, r⟩ := s
  replace hs : x < 2 ^ 32 := hs
  replace h0 : x.testBit p.enf = false := h0
  have hsh := one_shiftLeft_mod_two_pow_32 hp
  have key1 : (x ||| 2 ^ p.enf) &&& u32Not (2 ^ p.enf) = x := by
    apply Nat.eq_of_testBit_eq
    intro i
    simp only [Nat.testBit_and, Nat.testBit_or, Nat.testBit_two_pow,
      testBit_u32Not_two_pow hp]
    by_cases hi : p.enf = i
    · subst hi
      simp [h0]
    · by_cases h32 : i < 32
      · simp [hi, h32]
      · simp [h32, testBit_eq_false_of_lt_32 hs (Nat.le_of_not_lt h32)]
  refine ⟨?_, ?_, ?_, ?_, ?_, ?_, rfl, rfl⟩
  · simpa only [ResetEnable.enable, ResetEnable.disable, hsh,
      RccState.mk.injEq, and_true] using key1
  · simp only [ResetEnable.enable, hsh, RccState.mk.injEq, and_true]
    rw [Nat.or_assoc, Nat.or_self]
  · simp only [ResetEnable.enable, hsh]
    simp [Nat.testBit_or, Nat.testBit_two_pow]
  · simp only [ResetEnable.disable, hsh]
    simp [Nat.testBit_and, testBit_u32Not_two_pow hp]
  · intro i hi
    simp only [ResetEnable.enable, hsh]
    simp [Nat.testBit_or, Nat.testBit_two_pow, Ne.symm hi]
  · intro i hi
    simp only [ResetEnable.disable, hsh, Nat.testBit_and,
      testBit_u32Not_two_pow hp]
    by_cases h32 : i < 32
    · simp [h32, Ne.symm hi]
    · simp [h32, testBit_eq_false_of_lt_32 hs (Nat.le_of_not_lt h32)]

theorem rec_enable_disable_witness :
    ((2 : ℕ) < 32 ∧ (0 : ℕ) < 2 ^ 32 ∧
      Nat.testBit 0 2 = false) ∧
    (ResetEnable.disable Periph.Gpioa (ResetEnable.enable Periph.Gpioa ⟨0, 0⟩) =
        ⟨0, 0⟩ ∧
      ResetEnable.enable Periph.Gpioa (ResetEnable.enable Periph.Gpioa ⟨0, 0⟩) =
        ResetEnable.enable Periph.Gpioa ⟨0, 0⟩ ∧
      (ResetEnable.enable Periph.Gpioa ⟨0, 0⟩).apb2pcenr.testBit
        Periph.Gpioa.enf = true ∧
      (ResetEnable.disable Periph.Gpioa ⟨0, 0⟩).apb2pcenr.testBit
        Periph.Gpioa.enf = false ∧
      (∀ i, i ≠ Periph.Gpioa.enf →
        (ResetEnable.enable Periph.Gpioa ⟨0, 0⟩).apb2pcenr.testBit i =
          Nat.testBit 0 i) ∧
      (∀ i, i ≠ Periph.Gpioa.enf →
        (ResetEnable.disable Periph.Gpioa ⟨0, 0⟩).apb2pcenr.testBit i =
          Nat.testBit 0 i) ∧
      (ResetEnable.enable Periph.Gpioa ⟨0, 0⟩).apb2prstr = 0 ∧
      (ResetEnable.disable Periph.Gpioa ⟨0, 0⟩).apb2prstr = 0) :=
  ⟨⟨by norm_num, by norm_num, by decide⟩,
    rec_enable_disable Periph.Gpioa ⟨0, 0⟩ (by decide) (by norm_num) (by decide)⟩

/-- C7: `reset()` sets the peripheral's reset bit to 1, never clears any
bit that was 1 (in particular it never clears the reset bit), changes no
other bit of the reset-control register, and leaves the enable register
untouched. -/
theorem rec_reset (p : Periph) (s : RccState) (hp : p.rstf < 32) :
    (ResetEnable.reset p s).apb2prstr.testBit p.rstf = true ∧
    (∀ i, i ≠ p.rstf →
      (ResetEnable.reset p s).apb2prstr.testBit i = s.apb2prstr.testBit i) ∧
    (∀ i, s.apb2prstr.testBit i = true →
      (ResetEnable.reset p s).apb2prstr.testBit i = true) ∧
    (ResetEnable.reset p s).apb2pcenr = s.apb2pcenr := by
  simp only [ResetEnable.reset, one_shiftLeft_mod_two_pow_32 hp]
  refine ⟨?_, ?_, ?_, trivial⟩
  · simp [Nat.testBit_or]
  · intro i hi
    simp [Nat.testBit_or, Nat.testBit_two_pow, Ne.symm hi]
  · intro i hi
    simp [Nat.testBit_or, hi]

theorem rec_reset_witness :
    (2 : ℕ) < 32 ∧
    ((ResetEnable.reset Periph.Gpioa ⟨5, 16⟩).apb2prstr.testBit
        Periph.Gpioa.rstf = true ∧
      (∀ i, i ≠ Periph.Gpioa.rstf →
        (ResetEnable.reset Periph.Gpioa ⟨5, 16⟩).apb2prstr.testBit i =
          Nat.testBit 16 i) ∧
      (∀ i, Nat.testBit 16 i = true →
        (ResetEnable.reset Periph.Gpioa ⟨5, 16⟩).apb2prstr.testBit i = true) ∧
      (ResetEnable.reset Periph.Gpioa ⟨5, 16⟩).apb2pcenr = 5) :=
  ⟨by norm_num, rec_reset Periph.Gpioa ⟨5, 16⟩ (by decide)⟩

/-! ## Theorems: GPIO pin operations -/

/-- C3: for every pin number `N < 16`, `_set_high` writes exactly the
single bit `N` to the set/reset register and `_set_low` exactly bit
`16+N`; over the simulated set/reset register (bit `i` sets, bit `16+i`
clears bit `i` of the output-data register), reading `_is_set_low` right
after `_set_high` returns `false`, and right after `_set_low` returns
`true`, from any prior output-data register value. -/
theorem pin_set_reset_roundtrip (N outdr : ℕ) (hN : N < 16) :
    Pin.set_high_word N = 2 ^ N ∧
    Pin.set_low_word N = 2 ^ (16 + N) ∧
    Pin.is_set_low N (bshrWrite (Pin.set_high_word N) outdr) = false ∧
    Pin.is_set_low N (bshrWrite (Pin.set_low_word N) outdr) = true := by
  have hw_high : Pin.set_high_word N = 2 ^ N :=
    one_shiftLeft_mod_two_pow_32 (by omega)
  have hw_low : Pin.set_low_word N = 2 ^ (16 + N) :=
    one_shiftLeft_mod_two_pow_32 (by omega)
  have hNpow : (2 : ℕ) ^ N < 2 ^ 16 := Nat.pow_lt_pow_right (by norm_num) hN
  refine ⟨hw_high, hw_low, ?_, ?_⟩
  · rw [hw_high, bshrWrite]
    have hsr : (2 : ℕ) ^ N >>> 16 = 0 := by
      rw [Nat.shiftRight_eq_div_pow]
      exact Nat.div_eq_of_lt hNpow
    rw [hsr, Nat.zero_mod, Nat.mod_eq_of_lt hNpow]
    have hbit : ((outdr &&& u32Not 0) ||| 2 ^ N).testBit N = true := by
      simp [Nat.testBit_or]
    simp only [Pin.is_set_low, Nat.one_shiftLeft]
    rw [Nat.and_two_pow, hbit]
    simp [Nat.pow_eq_zero]
  · rw [hw_low, bshrWrite]
    have hsr : (2 : ℕ) ^ (16 + N) >>> 16 % 2 ^ 16 = 2 ^ N := by
      rw [Nat.shiftRight_eq_div_pow, pow_add,
        Nat.mul_div_cancel_left _ (by positivity : (0:ℕ) < 2 ^ 16)]
      exact Nat.mod_eq_of_lt hNpow
    have hlo : (2 : ℕ) ^ (16 + N) % 2 ^ 16 = 0 := by
      rw [pow_add]
      exact Nat.mul_mod_right _ _
    rw [hsr, hlo, Nat.or_zero]
    have hbit : (outdr &&& u32Not (2 ^ N)).testBit N = false := by
      simp [Nat.testBit_and, testBit_u32Not_two_pow (show N < 32 by omega)]
    simp [Pin.is_set_low, Nat.one_shiftLeft, Nat.and_two_pow, hbit]

theorem pin_set_reset_roundtrip_witness :
    (5 : ℕ) < 16 ∧
    (Pin.set_high_word 5 = 2 ^ 5 ∧
      Pin.set_low_word 5 = 2 ^ (16 + 5) ∧
      Pin.is_set_low 5 (bshrWrite (Pin.set_high_word 5) 0xABCD) = false ∧
      Pin.is_set_low 5 (bshrWrite (Pin.set_low_word 5) 0xABCD) = true) :=
  ⟨by norm_num, pin_set_reset_roundtrip 5 0xABCD (by norm_num)⟩

/-- C10: `Input<PullDown>`, `Input<PullUp>` and `Output<PushPull>` share
the configuration code `0b10_00`, so a `Pin::mode` transition between
any two of them issues no config-register write at all — the GPIO
register state is returned entirely unchanged — and the only write that
may occur is the single-bit pull set/clear write selected by the pin's
pull flags. -/
theorem same_cfgr_modes_no_config_write (M1 M2 : PinModeT) (N : ℕ)
    (s : GpioState)
    (h1 : M1 = Input.PullDown ∨ M1 = Input.PullUp ∨ M1 = Output.PushPull)
    (h2 : M2 = Input.PullDown ∨ M2 = Input.PullUp ∨ M2 = Output.PushPull) :
    M1.CFGR = 0b1000 ∧ M2.CFGR = 0b1000 ∧
    (Pin.mode N M1 M2 s).1 = s ∧
    (M1.PULL_DOWN = true →
      (Pin.mode N M1 M2 s).2 = PullWrite.bcr (1 <<< N % 2 ^ 32)) ∧
    (M1.PULL_UP = true →
      (Pin.mode N M1 M2 s).2 = PullWrite.bshr (1 <<< N % 2 ^ 32)) ∧
    (M1.PULL_DOWN = false → M1.PULL_UP = false →
      (Pin.mode N M1 M2 s).2 = PullWrite.none) := by
  rcases h1 with rfl | rfl | rfl <;> rcases h2 with rfl | rfl | rfl <;>
    simp [Pin.mode, Input.PullDown, Input.PullUp, Output.PushPull]

theorem same_cfgr_modes_no_config_write_witness :
    (Input.PullDown = Input.PullDown ∨ Input.PullDown = Input.PullUp ∨
      Input.PullDown = Output.PushPull) ∧
    (Output.PushPull = Input.PullDown ∨ Output.PushPull = Input.PullUp ∨
      Output.PushPull = Output.PushPull) ∧
    (Input.PullDown.CFGR = 0b1000 ∧ Output.PushPull.CFGR = 0b1000 ∧
      (Pin.mode 3 Input.PullDown Output.PushPull ⟨17, 5, 9⟩).1 = ⟨17, 5, 9⟩ ∧
      (Input.PullDown.PULL_DOWN = true →
        (Pin.mode 3 Input.PullDown Output.PushPull ⟨17, 5, 9⟩).2 =
          PullWrite.bcr (1 <<< 3 % 2 ^ 32)) ∧
      (Input.PullDown.PULL_UP = true →
        (Pin.mode 3 Input.PullDown Output.PushPull ⟨17, 5, 9⟩).2 =
          PullWrite.bshr (1 <<< 3 % 2 ^ 32)) ∧
      (Input.PullDown.PULL_DOWN = false → Input.PullDown.PULL_UP = false →
        (Pin.mode 3 Input.PullDown Output.PushPull ⟨17, 5, 9⟩).2 =
          PullWrite.none)) :=
  ⟨Or.inl rfl, Or.inr (Or.inr rfl),
    same_cfgr_modes_no_config_write Input.PullDown Output.PushPull 3
      ⟨17, 5, 9⟩ (Or.inl rfl) (Or.inr (Or.inr rfl))⟩

/-- C1 is refuted by the code: `let offset = 4 * N % 8` parses as
`(4 * N) % 8`, so the offset is 0 or 4 for every pin, not `4*N` /
`4*(N-8)`.  Concretely, transitioning pin `N = 2` from `Input<Floating>`
to `Analog` with `cfglr = 0x44444444` computes offset `0` and
read-modify-writes bits 0–3 (pin 0's field), producing `0x44444440`:
pin 2's field at its documented offset 8 still holds `0b0100 = 4`
instead of `Analog`'s code `0b0000`, and pin 0's field — a bit range the
operation must leave unchanged — was cleared.  Likewise pin `N = 10`
(high register) computes offset `0` instead of `4*(10-8) = 8`. -/
theorem pin_mode_offset_bug :
    4 * 2 % 8 = 0 ∧
    (Pin.mode 2 Input.Floating Analog ⟨0x44444444, 0, 0⟩).1.cfglr =
      0x44444440 ∧
    (Pin.mode 2 Input.Floating Analog ⟨0x44444444, 0, 0⟩).1.cfglr >>> 8 &&&
      0xF = 0x4 ∧
    (Pin.mode 2 Input.Floating Analog ⟨0x44444444, 0, 0⟩).1.cfglr &&& 0xF =
      0 ∧
    4 * 10 % 8 = 0 ∧
    (Pin.mode 10 Input.Floating Analog ⟨0, 0x44444444, 0⟩).1.cfghr =
      0x44444440 := by
  decide

/-- C2 is refuted by the code: the pull-register write is selected by
the *current* mode's `PULL_DOWN`/`PULL_UP` flags (`MODE::PULL_DOWN` /
`MODE::PULL_UP`), not the target mode `M`'s.  Concretely, the transition
`Input<Floating> → Input<PullDown>` on pin 3 writes nothing to BCR
(claim: write bit 3 to the bit-clear register), while the transitions
`Input<PullUp> → Output<PushPull>` and `Input<PullDown> →
Output<PushPull>` (claim: write neither register) write bit 3 to BSHR
and BCR respectively. -/
theorem pin_mode_pull_flag_bug :
    (Pin.mode 3 Input.Floating Input.PullDown ⟨0, 0, 0⟩).2 =
      PullWrite.none ∧
    (Pin.mode 3 Input.PullUp Output.PushPull ⟨0, 0, 0⟩).2 =
      PullWrite.bshr 8 ∧
    (Pin.mode 3 Input.PullDown Output.PushPull ⟨0, 0, 0⟩).2 =
      PullWrite.bcr 8 := by
  decide
